import Mathlib

/-!
Verification development for the `js-ceramic` core: the Document
conflict-resolution (fork choice) rule and the gossip `Dispatcher`
(`dispatcher.ts`).  Data types and operations are shallow embeddings of
the TypeScript source; external libraries (dag-cbor, sha256, multihash,
base64url, ipfs) are uninterpreted functions or explicit state.
-/

namespace Ceramic

/-! ## Commit identifiers

A commit identifier is an opaque byte sequence; fork choice compares
identifiers lexicographically (smaller wins). -/

/-- Strict lexicographic order on byte sequences (commit identifiers). -/
def tipLt : List Nat → List Nat → Bool
  | [], [] => false
  | [], _ :: _ => true
  | _ :: _, [] => false
  | x :: xs, y :: ys => if x < y then true else if y < x then false else tipLt xs ys

theorem tipLt_irrefl : ∀ l : List Nat, tipLt l l = false := by
  intro l
  induction l with
  | nil => rfl
  | cons x xs ih => simp [tipLt, ih]

theorem tipLt_asymm : ∀ a b : List Nat, tipLt a b = true → tipLt b a = false := by
  intro a
  induction a with
  | nil => intro b h; cases b with
    | nil => simp [tipLt] at h
    | cons y ys => rfl
  | cons x xs ih =>
    intro b h
    cases b with
    | nil => simp [tipLt] at h
    | cons y ys =>
      simp only [tipLt] at h ⊢
      by_cases hxy : x < y
      · have : ¬ y < x := Nat.lt_asymm hxy
        simp [hxy, this]
      · by_cases hyx : y < x
        · simp [hxy, hyx] at h
        · simp [hxy, hyx] at h ⊢
          exact ih ys h

theorem tipLt_total_eq : ∀ a b : List Nat,
    tipLt a b = false → tipLt b a = false → a = b := by
  intro a
  induction a with
  | nil => intro b h₁ _; cases b with
    | nil => rfl
    | cons y ys => simp [tipLt] at h₁
  | cons x xs ih =>
    intro b h₁ h₂
    cases b with
    | nil => simp [tipLt] at h₂
    | cons y ys =>
      simp only [tipLt] at h₁ h₂
      by_cases hxy : x < y
      · simp [hxy] at h₁
      · by_cases hyx : y < x
        · simp [hxy, hyx] at h₂
        · have hx : x = y := Nat.le_antisymm (Nat.le_of_not_lt hyx) (Nat.le_of_not_lt hxy)
          simp [hxy, hyx] at h₁ h₂
          rw [hx, ih ys h₁ h₂]

theorem tipLt_trans : ∀ a b c : List Nat,
    tipLt a b = true → tipLt b c = true → tipLt a c = true := by
  intro a
  induction a with
  | nil =>
    intro b c hab hbc
    cases b with
    | nil => simp [tipLt] at hab
    | cons y ys =>
      cases c with
      | nil => simp [tipLt] at hbc
      | cons z zs => rfl
  | cons x xs ih =>
    intro b c hab hbc
    cases b with
    | nil => simp [tipLt] at hab
    | cons y ys =>
      cases c with
      | nil => simp [tipLt] at hbc
      | cons z zs =>
        simp only [tipLt] at hab hbc ⊢
        by_cases hxy : x < y
        · by_cases hyz : y < z
          · simp [Nat.lt_trans hxy hyz]
          · by_cases hzy : z < y
            · simp [hyz, hzy] at hbc
            · have : y = z := Nat.le_antisymm (Nat.le_of_not_lt hzy) (Nat.le_of_not_lt hyz)
              subst this
              simp [hxy]
        · by_cases hyx : y < x
          · simp [hxy, hyx] at hab
          · have hx : x = y := Nat.le_antisymm (Nat.le_of_not_lt hyx) (Nat.le_of_not_lt hxy)
            subst hx
            by_cases hyz : x < z
            · simp [hyz]
            · by_cases hzy : z < x
              · simp [hyz, hzy] at hbc
              · simp [hxy, hyx] at hab
                simp [hyz, hzy] at hbc ⊢
                exact ih ys zs hab hbc

/-! ## Fork choice (Document conflict resolution)

Modelled from the spec: the `Document` class (its `_handleTip`
conflict-resolution entry point) is not among the provided source files;
only its tests are.  The model below follows the spec text of section
4.2: fork choice is a pure function of (anchor status, anchor proof
timestamp, log length, commit identifier). -/

/-- Modelled from the spec: the data fork choice inspects about one
candidate log — the tip identifier (opaque bytes), the number of commits
since genesis, whether the tip is anchored, and the anchor proof
timestamp (meaningful only when anchored). -/
structure CLog where
  tip : List Nat
  len : Nat
  anchored : Bool
  anchorTs : Nat
deriving DecidableEq, Repr

/-- Modelled from the spec: fork choice between the current log `a` and a
candidate log `b` sharing a genesis.  If exactly one tip is anchored the
anchored one wins; if both are anchored the earlier anchor timestamp
wins, ties broken by lexicographically smaller identifier; if neither is
anchored the longer log wins, ties broken identically. -/
def forkChoice (a b : CLog) : CLog :=
  if a.anchored && !b.anchored then a
  else if b.anchored && !a.anchored then b
  else if a.anchored && b.anchored then
    if a.anchorTs < b.anchorTs then a
    else if b.anchorTs < a.anchorTs then b
    else if tipLt a.tip b.tip then a else b
  else
    if b.len < a.len then a
    else if a.len < b.len then b
    else if tipLt a.tip b.tip then a else b

/-- Modelled from the spec: `handleTip` on a document whose current log is
`cur`, given a candidate log `cand`.  If the candidate tip already equals
the current tip this is a no-op; otherwise fork choice runs and the
winner becomes the current log. -/
def handleTip (cur cand : CLog) : CLog :=
  if cand.tip = cur.tip then cur else forkChoice cur cand

/-- Rank of a log in the fork-choice order: anchored logs beat
non-anchored ones. -/
def rank (l : CLog) : Nat := if l.anchored then 0 else 1

/-- Secondary fork-choice key: earlier anchor timestamp wins among
anchored logs, longer log wins among non-anchored ones. -/
def tkey (l : CLog) : Int := if l.anchored then (l.anchorTs : Int) else -(l.len : Int)

/-- The fork-choice preference as a strict comparison: `keyLtb a b` holds
when `a` strictly beats `b`. -/
def keyLtb (a b : CLog) : Bool :=
  decide (rank a < rank b) ||
    (decide (rank a = rank b) &&
      (decide (tkey a < tkey b) ||
        (decide (tkey a = tkey b) && tipLt a.tip b.tip)))

theorem keyLtb_iff (a b : CLog) : keyLtb a b = true ↔
    (rank a < rank b ∨ (rank a = rank b ∧
      (tkey a < tkey b ∨ (tkey a = tkey b ∧ tipLt a.tip b.tip = true)))) := by
  simp [keyLtb]

theorem keyLtb_irrefl (a : CLog) : keyLtb a a = false := by
  rw [← Bool.not_eq_true, keyLtb_iff]
  intro h
  rcases h with h | ⟨-, h⟩
  · omega
  · rcases h with h | ⟨-, h⟩
    · omega
    · rw [tipLt_irrefl] at h
      exact Bool.false_ne_true h

theorem keyLtb_asymm (a b : CLog) (h : keyLtb a b = true) : keyLtb b a = false := by
  rw [keyLtb_iff] at h
  rw [← Bool.not_eq_true, keyLtb_iff]
  intro hc
  rcases h with h | ⟨hr, h⟩
  · rcases hc with hc | ⟨hcr, -⟩
    · omega
    · omega
  · rcases hc with hc | ⟨hcr, hc⟩
    · omega
    · rcases h with h | ⟨ht, h⟩
      · rcases hc with hc | ⟨hct, -⟩
        · omega
        · omega
      · rcases hc with hc | ⟨hct, hc⟩
        · omega
        · rw [tipLt_asymm _ _ h] at hc
          exact Bool.false_ne_true hc

theorem keyLtb_total (a b : CLog) (h₁ : keyLtb a b = false) (h₂ : keyLtb b a = false) :
    rank a = rank b ∧ tkey a = tkey b ∧ a.tip = b.tip := by
  rw [← Bool.not_eq_true, keyLtb_iff] at h₁ h₂
  push_neg at h₁ h₂
  obtain ⟨hr₁, h₁⟩ := h₁
  obtain ⟨hr₂, h₂⟩ := h₂
  have hr : rank a = rank b := by omega
  obtain ⟨hc₁, h₁⟩ := h₁ hr
  obtain ⟨hc₂, h₂⟩ := h₂ hr.symm
  have ht : tkey a = tkey b := by omega
  have e₁ : tipLt a.tip b.tip = false := by simpa using h₁ ht
  have e₂ : tipLt b.tip a.tip = false := by simpa using h₂ ht.symm
  exact ⟨hr, ht, tipLt_total_eq _ _ e₁ e₂⟩

theorem keyLtb_trans (a b c : CLog) (h₁ : keyLtb a b = true) (h₂ : keyLtb b c = true) :
    keyLtb a c = true := by
  rw [keyLtb_iff] at h₁ h₂ ⊢
  rcases h₁ with h₁ | ⟨hr₁, h₁⟩
  · rcases h₂ with h₂ | ⟨hr₂, h₂⟩
    · left; omega
    · left; omega
  · rcases h₂ with h₂ | ⟨hr₂, h₂⟩
    · left; omega
    · right
      refine ⟨by omega, ?_⟩
      rcases h₁ with h₁ | ⟨ht₁, h₁⟩
      · rcases h₂ with h₂ | ⟨ht₂, h₂⟩
        · left; omega
        · left; omega
      · rcases h₂ with h₂ | ⟨ht₂, h₂⟩
        · left; omega
        · right
          exact ⟨by omega, tipLt_trans _ _ _ h₁ h₂⟩

theorem keyLtb_anch_unanch (a b : CLog) (ha : a.anchored = true) (hb : b.anchored = false) :
    keyLtb a b = true := by
  simp [keyLtb, rank, ha, hb]

theorem keyLtb_unanch_anch (a b : CLog) (ha : a.anchored = false) (hb : b.anchored = true) :
    keyLtb a b = false := by
  simp [keyLtb, rank, ha, hb]

theorem keyLtb_both_anch (a b : CLog) (ha : a.anchored = true) (hb : b.anchored = true) :
    keyLtb a b = (decide (a.anchorTs < b.anchorTs) ||
      (decide (a.anchorTs = b.anchorTs) && tipLt a.tip b.tip)) := by
  simp [keyLtb, rank, tkey, ha, hb]

theorem keyLtb_both_unanch (a b : CLog) (ha : a.anchored = false) (hb : b.anchored = false) :
    keyLtb a b = (decide (b.len < a.len) ||
      (decide (a.len = b.len) && tipLt a.tip b.tip)) := by
  have h1 : (tkey a < tkey b) ↔ (b.len < a.len) := by
    simp [tkey, ha, hb]
  have h2 : (tkey a = tkey b) ↔ (a.len = b.len) := by
    simp [tkey, ha, hb]
  simp [keyLtb, rank, ha, hb, h1, h2]

/-- The winner of fork choice, phrased through the strict preference
`keyLtb`: the candidate replaces the current log exactly when it strictly
beats it. -/
def selectLog (cur cand : CLog) : CLog := if keyLtb cand cur then cand else cur

theorem forkChoice_eq_select (a b : CLog) (hinj : a.tip = b.tip → a = b) :
    forkChoice a b = selectLog a b := by
  unfold forkChoice selectLog
  cases ha : a.anchored <;> cases hb : b.anchored
  · -- neither anchored
    rw [keyLtb_both_unanch b a hb ha]
    by_cases h₁ : b.len < a.len
    · simp only [ha, hb, Bool.and_false, Bool.false_and, Bool.and_self]
      have : ¬ a.len < b.len := by omega
      have : ¬ b.len = a.len := by omega
      simp [h₁, *]
    · by_cases h₂ : a.len < b.len
      · have : ¬ b.len = a.len := by omega
        simp [ha, hb, h₁, h₂, *]
      · have hl : b.len = a.len := by omega
        by_cases h₃ : tipLt a.tip b.tip
        · have h₄ := tipLt_asymm _ _ h₃
          simp [ha, hb, h₁, h₂, hl, h₃, h₄]
        · by_cases h₄ : tipLt b.tip a.tip
          · simp [ha, hb, h₁, h₂, hl, h₃, h₄]
          · have : a.tip = b.tip := tipLt_total_eq _ _
              (Bool.eq_false_iff.mpr h₃) (Bool.eq_false_iff.mpr h₄)
            have hab := hinj this
            subst hab
            simp [ha, h₁, h₂, h₃]
  · -- only b anchored
    rw [keyLtb_anch_unanch b a hb ha]
    simp [ha, hb]
  · -- only a anchored
    rw [keyLtb_unanch_anch b a hb ha]
    simp [ha, hb]
  · -- both anchored
    rw [keyLtb_both_anch b a hb ha]
    by_cases h₁ : a.anchorTs < b.anchorTs
    · have : ¬ b.anchorTs < a.anchorTs := by omega
      have : ¬ b.anchorTs = a.anchorTs := by omega
      simp [ha, hb, h₁, *]
    · by_cases h₂ : b.anchorTs < a.anchorTs
      · have : ¬ b.anchorTs = a.anchorTs := by omega
        simp [ha, hb, h₁, h₂, *]
      · have hts : b.anchorTs = a.anchorTs := by omega
        by_cases h₃ : tipLt a.tip b.tip
        · have h₄ := tipLt_asymm _ _ h₃
          simp [ha, hb, h₁, h₂, hts, h₃, h₄]
        · by_cases h₄ : tipLt b.tip a.tip
          · simp [ha, hb, h₁, h₂, hts, h₃, h₄]
          · have : a.tip = b.tip := tipLt_total_eq _ _
              (Bool.eq_false_iff.mpr h₃) (Bool.eq_false_iff.mpr h₄)
            have hab := hinj this
            subst hab
            simp [ha, h₁, h₂, h₃]

theorem handleTip_eq_select (cur cand : CLog) (hinj : cand.tip = cur.tip → cand = cur) :
    handleTip cur cand = selectLog cur cand := by
  unfold handleTip
  by_cases he : cand.tip = cur.tip
  · have := hinj he
    subst this
    simp [selectLog, keyLtb_irrefl]
  · rw [if_neg he, forkChoice_eq_select cur cand (fun h => absurd h.symm he)]

theorem selectLog_mem (x y : CLog) : selectLog x y = x ∨ selectLog x y = y := by
  unfold selectLog
  split
  · right; rfl
  · left; rfl

theorem selectLog_absorb (x y : CLog) : selectLog (selectLog x y) y = selectLog x y := by
  unfold selectLog
  cases h : keyLtb y x
  · simp [h]
  · simp [keyLtb_irrefl]

theorem selectLog_comm (x y : CLog) (hxy : x.tip = y.tip → x = y) :
    selectLog x y = selectLog y x := by
  unfold selectLog
  cases c₁ : keyLtb y x <;> cases c₂ : keyLtb x y
  · have := (keyLtb_total x y c₂ c₁).2.2
    rw [hxy this]
  · rfl
  · rfl
  · exact absurd c₁ (by simp [keyLtb_asymm x y c₂])

theorem selectLog_assoc (x y z : CLog)
    (hxy : x.tip = y.tip → x = y) (hyz : y.tip = z.tip → y = z) (hxz : x.tip = z.tip → x = z) :
    selectLog (selectLog x y) z = selectLog x (selectLog y z) := by
  unfold selectLog
  cases kyx : keyLtb y x <;> cases kzy : keyLtb z y
  · -- y does not beat x, z does not beat y
    simp only [kyx, Bool.false_eq_true, if_false, kzy]
    cases kzx : keyLtb z x
    · simp
    · -- z beats x although z does not beat y and y does not beat x: impossible
      exfalso
      cases kyz : keyLtb y z
      · have h := keyLtb_total y z kyz kzy
        have := hyz h.2.2
        subst this
        rw [kyx] at kzx
        exact Bool.false_ne_true kzx
      · cases kxy : keyLtb x y
        · have h := keyLtb_total x y kxy kyx
          have := hxy h.2.2
          subst this
          rw [kzy] at kzx
          exact Bool.false_ne_true kzx
        · have hbeats := keyLtb_trans x y z kxy kyz
          have := keyLtb_asymm x z hbeats
          rw [this] at kzx
          exact Bool.false_ne_true kzx
  · simp [kyx, kzy]
  · simp [kyx, kzy]
  · -- y beats x, z beats y: z beats x by transitivity
    have kzx := keyLtb_trans z y x kzy kyx
    simp [kyx, kzy, kzx]

/-- C2: for every pair of competing logs sharing a genesis where exactly
one log tip is anchored, fork choice selects the anchored log regardless
of which log has more commits, and `handleTip` in either direction
converges on the anchored log. -/
theorem claim_anchored_tip_wins (a b : CLog)
    (ha : a.anchored = true) (hb : b.anchored = false) (hne : a.tip ≠ b.tip) :
    forkChoice a b = a ∧ forkChoice b a = a ∧ handleTip a b = a ∧ handleTip b a = a := by
  have h₁ : forkChoice a b = a := by simp [forkChoice, ha, hb]
  have h₂ : forkChoice b a = a := by simp [forkChoice, ha, hb]
  refine ⟨h₁, h₂, ?_, ?_⟩
  · unfold handleTip
    by_cases he : b.tip = a.tip
    · simp [he]
    · simp [he, h₁]
  · unfold handleTip
    rw [if_neg hne, h₂]

/-- Witness for C2 at concrete logs: the anchored log with 2 commits
beats the non-anchored log with 9 commits, in both argument orders. -/
theorem claim_anchored_tip_wins_witness :
    forkChoice ⟨[1], 2, true, 5⟩ ⟨[2], 9, false, 0⟩ = ⟨[1], 2, true, 5⟩ ∧
    forkChoice ⟨[2], 9, false, 0⟩ ⟨[1], 2, true, 5⟩ = ⟨[1], 2, true, 5⟩ :=
  ⟨(claim_anchored_tip_wins _ _ rfl rfl (by decide)).1,
   (claim_anchored_tip_wins _ _ rfl rfl (by decide)).2.1⟩

/-- C1: fork choice is order-independent: delivering candidate tips A
then B to a document yields the same final log as delivering B then A,
and re-delivering an already-incorporated tip changes nothing, so
replicas observing the same set of tips converge.  The hypotheses state
content addressing: distinct logs carry distinct tip identifiers. -/
theorem claim_handleTip_order_independent (s a b : CLog)
    (hsa : s.tip = a.tip → s = a) (hsb : s.tip = b.tip → s = b)
    (hab : a.tip = b.tip → a = b) :
    handleTip (handleTip s a) b = handleTip (handleTip s b) a ∧
    handleTip (handleTip s a) a = handleTip s a ∧
    handleTip s s = s := by
  have hsa' : a.tip = s.tip → a = s := fun h => (hsa h.symm).symm
  have hsb' : b.tip = s.tip → b = s := fun h => (hsb h.symm).symm
  have hab' : b.tip = a.tip → b = a := fun h => (hab h.symm).symm
  have e₁ : handleTip s a = selectLog s a := handleTip_eq_select s a hsa'
  have e₂ : handleTip s b = selectLog s b := handleTip_eq_select s b hsb'
  have m₁ := selectLog_mem s a
  have m₂ := selectLog_mem s b
  have hb₁ : b.tip = (selectLog s a).tip → b = selectLog s a := by
    rcases m₁ with h | h <;> rw [h]
    · exact hsb'
    · exact hab'
  have ha₂ : a.tip = (selectLog s b).tip → a = selectLog s b := by
    rcases m₂ with h | h <;> rw [h]
    · exact hsa'
    · exact hab
  have ha₁ : a.tip = (selectLog s a).tip → a = selectLog s a := by
    rcases m₁ with h | h <;> rw [h]
    · exact hsa'
    · exact fun _ => rfl
  refine ⟨?_, ?_, by simp [handleTip]⟩
  · rw [e₁, e₂, handleTip_eq_select _ b hb₁, handleTip_eq_select _ a ha₂]
    rw [selectLog_assoc s a b hsa hab hsb]
    rw [selectLog_assoc s b a hsb hab' hsa]
    rw [selectLog_comm a b hab]
  · rw [e₁, handleTip_eq_select _ a ha₁, selectLog_absorb]

/-- Witness for C1 at concrete competing logs with distinct tips: the two
delivery orders agree and re-delivery is a no-op. -/
theorem claim_handleTip_order_independent_witness :
    handleTip (handleTip ⟨[0], 1, false, 0⟩ ⟨[1], 2, false, 0⟩) ⟨[2], 3, false, 0⟩ =
      handleTip (handleTip ⟨[0], 1, false, 0⟩ ⟨[2], 3, false, 0⟩) ⟨[1], 2, false, 0⟩ ∧
    handleTip (handleTip ⟨[0], 1, false, 0⟩ ⟨[1], 2, false, 0⟩) ⟨[1], 2, false, 0⟩ =
      handleTip ⟨[0], 1, false, 0⟩ ⟨[1], 2, false, 0⟩ :=
  ⟨(claim_handleTip_order_independent ⟨[0], 1, false, 0⟩ ⟨[1], 2, false, 0⟩
      ⟨[2], 3, false, 0⟩ (by decide) (by decide) (by decide)).1,
   (claim_handleTip_order_independent ⟨[0], 1, false, 0⟩ ⟨[1], 2, false, 0⟩
      ⟨[2], 3, false, 0⟩ (by decide) (by decide) (by decide)).2.1⟩

/-! ## Pubsub messages (dispatcher.ts)

Embedding of the protocol messages handled by `Dispatcher`.  Document
ids, commit CIDs, peer ids and correlation ids are opaque strings, as in
the source.  `deserialize` lives outside the given sources, so an inbound
message is taken in already-parsed form; a wire `typ` outside the three
known variants is the `unknownTyp` constructor. -/

/-- An `UPDATE { doc, tip }` pubsub message. -/
structure UpdateMsg where
  doc : String
  tip : String
deriving DecidableEq, Repr

/-- A `QUERY { typ, doc, id }` pubsub message as received. -/
structure QueryMsg where
  id : String
  doc : String
deriving DecidableEq, Repr

/-- A `RESPONSE { typ, id, tips }` pubsub message; `tips` maps document
ids to tip CIDs. -/
structure ResponseMsg where
  id : String
  tips : List (String × String)
deriving DecidableEq, Repr

/-- A deserialized pubsub message, by its `typ` tag. -/
inductive PubsubMessage where
  | query (m : QueryMsg)
  | response (m : ResponseMsg)
  | update (m : UpdateMsg)
  | unknownTyp (typ : Nat)
deriving DecidableEq, Repr

/-- Errors `Dispatcher` message handling can raise. -/
inductive DispatchError where
  | malformedResponse (queryId : String) (docId : String)
  | unreachableMessageType (typ : Nat)
deriving DecidableEq, Repr

/-- Observable side effects of a `Dispatcher` operation, in order. -/
inductive Effect where
  | publishedMsg (topic : String) (m : PubsubMessage)
  | publishedQuery (topic : String) (typ : Nat) (doc : String) (id : String)
  | emittedUpdate (doc : String) (tip : String)
  | loggedErr (s : String)
  | loggedEvent
  | unsubscribed (topic : String)
  | repositoryClosed
deriving DecidableEq, Repr

/-- The document registry (`repository.ts` is outside the given sources).
Modelled from the spec: a process-wide mapping from document id to the
single live document instance, here reduced to the data the dispatcher
reads from it — the current tip per document id. -/
structure Repository where
  docs : List (String × String)
deriving DecidableEq, Repr

/-- Look up a tracked document by id. -/
def Repository.get? (r : Repository) (doc : String) : Option String :=
  (r.docs.find? (fun p => p.1 == doc)).map (fun p => p.2)

/-- Modelled from the spec: `has` is lookup success. -/
def Repository.hasDoc (r : Repository) (doc : String) : Bool :=
  (r.get? doc).isSome

/-- Modelled from the spec: `add` never creates a duplicate instance for
an id already present. -/
def Repository.add (r : Repository) (doc tip : String) : Repository :=
  if r.hasDoc doc then r else ⟨r.docs ++ [(doc, tip)]⟩

/-- Modelled from the spec: `delete` removes the entry for the id. -/
def Repository.deleteDoc (r : Repository) (doc : String) : Repository :=
  ⟨r.docs.filter (fun p => p.1 != doc)⟩

/-- The mutable fields of a `Dispatcher` instance: the outstanding query
table (query id to primary document id), the running flag, the
resubscribe timer, and the repository it routes into. -/
structure DispatcherState where
  peerId : String
  topic : String
  outstandingQueryIds : List (String × String)
  isRunning : Bool
  resubscribeActive : Bool
  repo : Repository
deriving DecidableEq, Repr

/-- A freshly constructed dispatcher: empty outstanding query table,
running. -/
def initialDispatcher (peer topic : String) : DispatcherState :=
  ⟨peer, topic, [], true, false, ⟨[]⟩⟩

/-- Look up the document id recorded for a query correlation id. -/
def lookupQuery (s : DispatcherState) (qid : String) : Option String :=
  (s.outstandingQueryIds.find? (fun p => p.1 == qid)).map (fun p => p.2)

/-- JavaScript record assignment `table[k] = v`: overwrite the binding if
the key exists, append it otherwise. -/
def recordSet (l : List (String × String)) (k v : String) : List (String × String) :=
  if (l.find? (fun p => p.1 == k)).isSome
  then l.map (fun p => if p.1 == k then (k, v) else p)
  else l ++ [(k, v)]

/-! ## Correlation-id hashing (`_hashMessage`, `_buildQueryMessage`)

The libraries composed by `_hashMessage` — dag-cbor canonical
serialization, sha-256, multihash wrapping, base64url rendering — are
external collaborators and enter the model as uninterpreted functions. -/

/-- The numeric wire tag of `MsgType.QUERY`. -/
def msgTypeQUERY : Nat := 0

/-- The logical fields of a QUERY before the id is attached:
`{ typ: MsgType.QUERY, doc }`. -/
structure QueryPayload where
  typ : Nat
  doc : String
deriving DecidableEq, Repr

/-- The external hashing collaborators used by `_hashMessage`. -/
structure HashLibs where
  dagCborSerialize : QueryPayload → List Nat
  sha256 : List Nat → List Nat
  multihashSha256 : List Nat → List Nat
  toBase64url : List Nat → String

/-- `Dispatcher._hashMessage`: dag-cbor encode, sha-256 hash, multihash
wrap, base64url render. -/
def hashMessage (L : HashLibs) (m : QueryPayload) : String :=
  L.toBase64url (L.multihashSha256 (L.sha256 (L.dagCborSerialize m)))

/-- A QUERY message as built for sending: the payload plus its id. -/
structure BuiltQuery where
  typ : Nat
  doc : String
  id : String
deriving DecidableEq, Repr

/-- `Dispatcher._buildQueryMessage`: hash the `{typ, doc}` pair and attach
the hash as the message id. -/
def buildQueryMessage (L : HashLibs) (docId : String) : BuiltQuery :=
  let message : QueryPayload := ⟨msgTypeQUERY, docId⟩
  ⟨message.typ, message.doc, hashMessage L message⟩

/-- The correlation id the spec prescribes for a QUERY about `doc`: the
base64url encoding of the sha2-256 multihash of the canonical dag-cbor
serialization of the pair `{typ: QUERY, doc}`.  Stated from the spec
wording, to be compared with the id `buildQueryMessage` attaches. -/
def specCorrelationId (L : HashLibs) (doc : String) : String :=
  L.toBase64url (L.multihashSha256 (L.sha256 (L.dagCborSerialize ⟨msgTypeQUERY, doc⟩)))

/-- C3: for every document, the correlation id of the QUERY message built
for it is exactly the spec-prescribed canonical hash of the
`{typ: QUERY, doc}` pair, and the payload fields are that pair; hence the
same logical query always carries the same id. -/
theorem claim_query_correlation_id (L : HashLibs) (doc : String) :
    (buildQueryMessage L doc).id = specCorrelationId L doc ∧
    (buildQueryMessage L doc).typ = msgTypeQUERY ∧
    (buildQueryMessage L doc).doc = doc := by
  exact ⟨rfl, rfl, rfl⟩

/-! ## Commit storage and the record-size limit (`storeCommit`) -/

/-- Maximum accepted stored-record size in bytes. -/
def IPFS_MAX_RECORD_SIZE : Nat := 256000

/-- A content-addressed record as the ipfs block store sees it: its CID
and its stored size in bytes. -/
structure BlockRecord where
  cid : String
  size : Nat
deriving DecidableEq, Repr

/-- The data `storeCommit` accepts: either a signed commit container
(a JWS envelope plus its linked payload block) or a plain commit. -/
inductive CommitData where
  | plain (rec : BlockRecord)
  | signedContainer (jws : BlockRecord) (linkedBlock : BlockRecord)
deriving DecidableEq, Repr

/-- The ipfs block store, as the list of records written to it. -/
structure IpfsState where
  blocks : List BlockRecord
deriving DecidableEq, Repr

/-- `ipfs.dag.put` / `ipfs.block.put`: write a record. -/
def IpfsState.put (st : IpfsState) (r : BlockRecord) : IpfsState :=
  ⟨r :: st.blocks⟩

/-- `ipfs.block.stat`: size of a stored record. -/
def IpfsState.statSize (st : IpfsState) (cid : String) : Option Nat :=
  (st.blocks.find? (fun r => r.cid == cid)).map (fun r => r.size)

/-- The oversized-record error message raised by `_restrictRecordSize`. -/
def oversizeError (cid : String) (size : Nat) : String :=
  cid ++ " record size " ++ toString size ++ " exceeds the maximum block size of " ++
    toString IPFS_MAX_RECORD_SIZE

/-- `Dispatcher._restrictRecordSize`: stat the record and fail when the
stored size exceeds `IPFS_MAX_RECORD_SIZE`. -/
def restrictRecordSize (st : IpfsState) (cid : String) : Except String Unit :=
  match st.statSize cid with
  | some size =>
    if size > IPFS_MAX_RECORD_SIZE then Except.error (oversizeError cid size)
    else Except.ok ()
  | none => Except.error "block not found"

/-- `Dispatcher.storeCommit`: write the record (or, for a signed commit
container, the JWS envelope and its linked payload block) into the block
store, then enforce the record-size limit on what was written.  Returns
the new store state and the CID, or the size error. -/
def storeCommit (st : IpfsState) (data : CommitData) : IpfsState × Except String String :=
  match data with
  | CommitData.signedContainer jws linked =>
    let st1 := (st.put jws).put linked
    match restrictRecordSize st1 linked.cid with
    | Except.error e => (st1, Except.error e)
    | Except.ok _ =>
      match restrictRecordSize st1 jws.cid with
      | Except.error e => (st1, Except.error e)
      | Except.ok _ => (st1, Except.ok jws.cid)
  | CommitData.plain rec =>
    let st1 := st.put rec
    match restrictRecordSize st1 rec.cid with
    | Except.error e => (st1, Except.error e)
    | Except.ok _ => (st1, Except.ok rec.cid)

/-! ## Dispatcher operations -/

/-- The diagnostics message logged when an operation runs post-close. -/
def closedErrorLog : String := "Dispatcher has been closed"

/-- `Dispatcher.register`: add the document to the repository, build a
QUERY for it, record the query id in the outstanding query table, and
publish the QUERY on the topic.  Note: the publish happens through the
raw ipfs handle, with no check of the running flag. -/
def register (L : HashLibs) (s : DispatcherState) (docId tip : String) :
    DispatcherState × List Effect :=
  let repo1 := s.repo.add docId tip
  let payload := buildQueryMessage L docId
  let s1 : DispatcherState :=
    { s with repo := repo1,
             outstandingQueryIds := recordSet s.outstandingQueryIds payload.id docId }
  (s1, [Effect.publishedQuery s.topic payload.typ payload.doc payload.id, Effect.loggedEvent])

/-- `Dispatcher.unregister`: drop the document from the repository. -/
def unregister (s : DispatcherState) (docId : String) : DispatcherState :=
  { s with repo := s.repo.deleteDoc docId }

/-- `Dispatcher.publish`: when closed, log an error and do nothing;
otherwise publish the serialized message on the topic. -/
def publish (s : DispatcherState) (m : PubsubMessage) : DispatcherState × List Effect :=
  if s.isRunning then
    (s, [Effect.publishedMsg s.topic m, Effect.loggedEvent])
  else
    (s, [Effect.loggedErr closedErrorLog])

/-- `Dispatcher._handleUpdateMessage`: when the document is tracked, feed
the announced tip into it (an `update` event driving `_handleTip`). -/
def handleUpdateMessage (s : DispatcherState) (m : UpdateMsg) :
    Except DispatchError (DispatcherState × List Effect) :=
  if s.repo.hasDoc m.doc then Except.ok (s, [Effect.emittedUpdate m.doc m.tip])
  else Except.ok (s, [])

/-- `Dispatcher._handleQueryMessage`: when the document is tracked, reply
with a RESPONSE carrying its current tip, correlated by the query id. -/
def handleQueryMessage (s : DispatcherState) (m : QueryMsg) :
    Except DispatchError (DispatcherState × List Effect) :=
  match s.repo.get? m.doc with
  | some tip => Except.ok (publish s (PubsubMessage.response ⟨m.id, [(m.doc, tip)]⟩))
  | none => Except.ok (s, [])

/-- `Dispatcher._handleResponseMessage`: look the correlation id up in the
outstanding query table; no entry means a silent no-op; an entry whose
expected document is missing from `tips` is a malformed response; with
the tip present, a tracked document receives it as an `update`.  The
table entry is read, never deleted. -/
def handleResponseMessage (s : DispatcherState) (m : ResponseMsg) :
    Except DispatchError (DispatcherState × List Effect) :=
  match lookupQuery s m.id with
  | none => Except.ok (s, [])
  | some expectedDocId =>
    match (m.tips.find? (fun p => p.1 == expectedDocId)).map (fun p => p.2) with
    | none => Except.error (DispatchError.malformedResponse m.id expectedDocId)
    | some newTip =>
      if s.repo.hasDoc expectedDocId then
        Except.ok (s, [Effect.emittedUpdate expectedDocId newTip])
      else Except.ok (s, [])

/-- `Dispatcher.handleMessage`: drop everything when closed (logging an
error), ignore messages from the local peer, then dispatch on the
message type; a type outside the three known variants raises
`UnreachableCaseError`. -/
def handleMessage (s : DispatcherState) (msgFrom : String) (data : PubsubMessage) :
    Except DispatchError (DispatcherState × List Effect) :=
  if s.isRunning = false then Except.ok (s, [Effect.loggedErr closedErrorLog])
  else if msgFrom == s.peerId then Except.ok (s, [])
  else
    match data with
    | PubsubMessage.query m => handleQueryMessage s m
    | PubsubMessage.response m => handleResponseMessage s m
    | PubsubMessage.update m => handleUpdateMessage s m
    | PubsubMessage.unknownTyp t => Except.error (DispatchError.unreachableMessageType t)

/-- `Dispatcher.close`: clear the running flag and the resubscribe timer,
close the repository, unsubscribe from the topic. -/
def close (s : DispatcherState) : DispatcherState × List Effect :=
  ({ s with isRunning := false, resubscribeActive := false },
   [Effect.repositoryClosed, Effect.unsubscribed s.topic])

/-! ## C4: the record-size limit -/

/-- C4 as amended, covering both `storeCommit` branches: for every commit
with a stored record exceeding 256,000 bytes — a plain commit, a signed
commit container whose linked payload block is oversized, or one whose
JWS envelope is oversized (with the linked block within the limit and a
distinct CID, as content addressing gives) — `storeCommit` fails with
the oversized-record error for that record and no CID is returned, but
every record of the commit has already been written to the block store
by `dag.put`/`block.put` before the size checks run, so it is
persisted. -/
theorem claim_storeCommit_oversize (st : IpfsState) (rec jws linked : BlockRecord) :
    (rec.size > IPFS_MAX_RECORD_SIZE →
      (storeCommit st (CommitData.plain rec)).2 =
        Except.error (oversizeError rec.cid rec.size) ∧
      rec ∈ (storeCommit st (CommitData.plain rec)).1.blocks) ∧
    (linked.size > IPFS_MAX_RECORD_SIZE →
      (storeCommit st (CommitData.signedContainer jws linked)).2 =
        Except.error (oversizeError linked.cid linked.size) ∧
      jws ∈ (storeCommit st (CommitData.signedContainer jws linked)).1.blocks ∧
      linked ∈ (storeCommit st (CommitData.signedContainer jws linked)).1.blocks) ∧
    (jws.size > IPFS_MAX_RECORD_SIZE → linked.size ≤ IPFS_MAX_RECORD_SIZE →
      jws.cid ≠ linked.cid →
      (storeCommit st (CommitData.signedContainer jws linked)).2 =
        Except.error (oversizeError jws.cid jws.size) ∧
      jws ∈ (storeCommit st (CommitData.signedContainer jws linked)).1.blocks ∧
      linked ∈ (storeCommit st (CommitData.signedContainer jws linked)).1.blocks) := by
  have hstatP : IpfsState.statSize ⟨rec :: st.blocks⟩ rec.cid = some rec.size := by
    unfold IpfsState.statSize
    rw [List.find?_cons_of_pos _ (by simp)]
    rfl
  have hstatL : IpfsState.statSize ⟨linked :: jws :: st.blocks⟩ linked.cid =
      some linked.size := by
    unfold IpfsState.statSize
    rw [List.find?_cons_of_pos _ (by simp)]
    rfl
  refine ⟨?_, ?_, ?_⟩
  · intro h
    have hrr : restrictRecordSize ⟨rec :: st.blocks⟩ rec.cid =
        Except.error (oversizeError rec.cid rec.size) := by
      unfold restrictRecordSize
      rw [hstatP]
      simp [h]
    have hsc : storeCommit st (CommitData.plain rec) =
        (⟨rec :: st.blocks⟩, Except.error (oversizeError rec.cid rec.size)) := by
      unfold storeCommit
      simp [IpfsState.put, hrr]
    rw [hsc]
    exact ⟨rfl, List.mem_cons_self _ _⟩
  · intro h
    have hrr : restrictRecordSize ⟨linked :: jws :: st.blocks⟩ linked.cid =
        Except.error (oversizeError linked.cid linked.size) := by
      unfold restrictRecordSize
      rw [hstatL]
      simp [h]
    have hsc : storeCommit st (CommitData.signedContainer jws linked) =
        (⟨linked :: jws :: st.blocks⟩,
          Except.error (oversizeError linked.cid linked.size)) := by
      unfold storeCommit
      simp [IpfsState.put, hrr]
    rw [hsc]
    exact ⟨rfl, by simp, by simp⟩
  · intro hj hl hne
    have hrrL : restrictRecordSize ⟨linked :: jws :: st.blocks⟩ linked.cid =
        Except.ok () := by
      unfold restrictRecordSize
      rw [hstatL]
      have hnl : ¬ linked.size > IPFS_MAX_RECORD_SIZE := by omega
      simp [hnl]
    have hstatJ : IpfsState.statSize ⟨linked :: jws :: st.blocks⟩ jws.cid =
        some jws.size := by
      unfold IpfsState.statSize
      rw [List.find?_cons_of_neg _ (by
            simp only [beq_iff_eq]
            exact fun hh => hne hh.symm),
          List.find?_cons_of_pos _ (by simp)]
      rfl
    have hrrJ : restrictRecordSize ⟨linked :: jws :: st.blocks⟩ jws.cid =
        Except.error (oversizeError jws.cid jws.size) := by
      unfold restrictRecordSize
      rw [hstatJ]
      simp [hj]
    have hsc : storeCommit st (CommitData.signedContainer jws linked) =
        (⟨linked :: jws :: st.blocks⟩,
          Except.error (oversizeError jws.cid jws.size)) := by
      unfold storeCommit
      simp [IpfsState.put, hrrL, hrrJ]
    rw [hsc]
    exact ⟨rfl, by simp, by simp⟩

/-- Counterexample to C4 as stated, on both `storeCommit` branches: a
plain 300,000-byte record, and a signed commit container whose JWS
envelope is 300,000 bytes, each make `storeCommit` fail with the
oversized-record error — yet every record involved has been persisted
into the block store by the time the call fails. -/
theorem claim_storeCommit_oversize_counterexample :
    (storeCommit ⟨[]⟩ (CommitData.plain ⟨"c1", 300000⟩)).2 =
      Except.error (oversizeError "c1" 300000) ∧
    (storeCommit ⟨[]⟩ (CommitData.plain ⟨"c1", 300000⟩)).1.blocks =
      [⟨"c1", 300000⟩] ∧
    (storeCommit ⟨[]⟩ (CommitData.signedContainer ⟨"cj", 300000⟩ ⟨"cl", 100⟩)).2 =
      Except.error (oversizeError "cj" 300000) ∧
    (storeCommit ⟨[]⟩ (CommitData.signedContainer ⟨"cj", 300000⟩ ⟨"cl", 100⟩)).1.blocks =
      [⟨"cl", 100⟩, ⟨"cj", 300000⟩] := by
  exact ⟨rfl, rfl, rfl, rfl⟩

/-- Witness for the amended C4, exercising all three clauses: an
oversized plain record, a signed container with an oversized linked
block, and a signed container with an oversized JWS envelope. -/
theorem claim_storeCommit_oversize_witness :
    ((storeCommit ⟨[]⟩ (CommitData.plain ⟨"c1", 300000⟩)).2 =
        Except.error (oversizeError "c1" 300000) ∧
      (⟨"c1", 300000⟩ : BlockRecord) ∈
        (storeCommit ⟨[]⟩ (CommitData.plain ⟨"c1", 300000⟩)).1.blocks) ∧
    ((storeCommit ⟨[]⟩ (CommitData.signedContainer ⟨"cj", 50⟩ ⟨"cl", 300000⟩)).2 =
        Except.error (oversizeError "cl" 300000) ∧
      (⟨"cj", 50⟩ : BlockRecord) ∈
        (storeCommit ⟨[]⟩ (CommitData.signedContainer ⟨"cj", 50⟩ ⟨"cl", 300000⟩)).1.blocks ∧
      (⟨"cl", 300000⟩ : BlockRecord) ∈
        (storeCommit ⟨[]⟩ (CommitData.signedContainer ⟨"cj", 50⟩ ⟨"cl", 300000⟩)).1.blocks) ∧
    ((storeCommit ⟨[]⟩ (CommitData.signedContainer ⟨"cj", 300000⟩ ⟨"cl", 100⟩)).2 =
        Except.error (oversizeError "cj" 300000) ∧
      (⟨"cj", 300000⟩ : BlockRecord) ∈
        (storeCommit ⟨[]⟩ (CommitData.signedContainer ⟨"cj", 300000⟩ ⟨"cl", 100⟩)).1.blocks ∧
      (⟨"cl", 100⟩ : BlockRecord) ∈
        (storeCommit ⟨[]⟩ (CommitData.signedContainer ⟨"cj", 300000⟩ ⟨"cl", 100⟩)).1.blocks) :=
  ⟨(claim_storeCommit_oversize ⟨[]⟩ ⟨"c1", 300000⟩ ⟨"x", 0⟩ ⟨"y", 0⟩).1 (by decide),
   (claim_storeCommit_oversize ⟨[]⟩ ⟨"c1", 300000⟩ ⟨"cj", 50⟩ ⟨"cl", 300000⟩).2.1
     (by decide),
   (claim_storeCommit_oversize ⟨[]⟩ ⟨"c1", 300000⟩ ⟨"cj", 300000⟩ ⟨"cl", 100⟩).2.2
     (by decide) (by decide) (by decide)⟩

/-! ## C5: RESPONSE routing -/

/-- C5 as amended: an inbound RESPONSE with an unknown correlation id is a
silent no-op; a matching id whose expected document is absent from the
`tips` mapping fails with the malformed-response error; a matching id
with the tip present feeds the tip into the document — provided the
document is still in the repository; if it has been unregistered in the
meantime, the response is silently dropped. -/
theorem claim_response_routing (s : DispatcherState) (m : ResponseMsg) :
    (lookupQuery s m.id = none → handleResponseMessage s m = Except.ok (s, [])) ∧
    (∀ d, lookupQuery s m.id = some d →
      (m.tips.find? (fun p => p.1 == d)).map (fun p => p.2) = none →
      handleResponseMessage s m = Except.error (DispatchError.malformedResponse m.id d)) ∧
    (∀ d t, lookupQuery s m.id = some d →
      (m.tips.find? (fun p => p.1 == d)).map (fun p => p.2) = some t →
      s.repo.hasDoc d = true →
      handleResponseMessage s m = Except.ok (s, [Effect.emittedUpdate d t])) ∧
    (∀ d t, lookupQuery s m.id = some d →
      (m.tips.find? (fun p => p.1 == d)).map (fun p => p.2) = some t →
      s.repo.hasDoc d = false →
      handleResponseMessage s m = Except.ok (s, [])) := by
  refine ⟨?_, ?_, ?_, ?_⟩
  · intro h
    simp [handleResponseMessage, h]
  · intro d h₁ h₂
    simp [handleResponseMessage, h₁, h₂]
  · intro d t h₁ h₂ h₃
    simp [handleResponseMessage, h₁, h₂, h₃]
  · intro d t h₁ h₂ h₃
    simp [handleResponseMessage, h₁, h₂, h₃]

/-- Witness for C5 (amended) on a concrete state where the queried
document is tracked: the tip is fed in. -/
theorem claim_response_routing_witness :
    handleResponseMessage ⟨"p", "t", [("q", "d")], true, false, ⟨[("d", "tip0")]⟩⟩
        ⟨"q", [("d", "tipZ")]⟩ =
      Except.ok (⟨"p", "t", [("q", "d")], true, false, ⟨[("d", "tip0")]⟩⟩,
        [Effect.emittedUpdate "d" "tipZ"]) :=
  (claim_response_routing _ _).2.2.1 "d" "tipZ" (by rfl) (by rfl) (by rfl)

/-- Counterexample to C5 as stated: the correlation id matches an
outstanding query and the expected document tip is present in `tips`,
yet because the document is no longer in the repository nothing is fed
into `handleTip` — the response is dropped, not routed. -/
theorem claim_response_routing_counterexample :
    lookupQuery ⟨"p", "t", [("q", "d")], true, false, ⟨[]⟩⟩ "q" = some "d" ∧
    ((⟨"q", [("d", "tipZ")]⟩ : ResponseMsg).tips.find?
        (fun p => p.1 == "d")).map (fun p => p.2) = some "tipZ" ∧
    handleResponseMessage ⟨"p", "t", [("q", "d")], true, false, ⟨[]⟩⟩
        ⟨"q", [("d", "tipZ")]⟩ =
      Except.ok (⟨"p", "t", [("q", "d")], true, false, ⟨[]⟩⟩, []) := by
  refine ⟨rfl, rfl, rfl⟩

/-! ## C6: duplicate RESPONSE delivery -/

/-- A concrete instantiation of the hashing collaborators, used to run
the dispatcher on closed inputs. -/
def L0 : HashLibs :=
  ⟨fun _ => [], fun x => x, fun x => x, fun _ => "Q0"⟩

/-- C6, evaluated at the failing input: after `register` stores the query
id, a matching RESPONSE feeds the tip into the document exactly once —
but it leaves the dispatcher state (including the outstanding query
table) unchanged, so a second delivery of the very same RESPONSE feeds
the tip in again instead of being ignored: the table entry for the id is
still present after the first response is handled. -/
theorem claim_duplicate_response_replayed :
    handleResponseMessage (register L0 (initialDispatcher "peer" "topic") "D" "tip0").1
        ⟨"Q0", [("D", "tipZ")]⟩ =
      Except.ok ((register L0 (initialDispatcher "peer" "topic") "D" "tip0").1,
        [Effect.emittedUpdate "D" "tipZ"]) ∧
    lookupQuery (register L0 (initialDispatcher "peer" "topic") "D" "tip0").1 "Q0" =
      some "D" := by
  exact ⟨rfl, rfl⟩

/-! ## C7: behaviour after close() -/

/-- Counterexample to C7 as stated: after `close()` the dispatcher is no
longer running, yet `register` neither fails with a closed-resource
error nor refrains from I/O — it still publishes the QUERY message on
the pubsub topic. -/
theorem claim_closed_dispatcher_counterexample :
    (close (initialDispatcher "p" "t")).1.isRunning = false ∧
    (register L0 (close (initialDispatcher "p" "t")).1 "D" "tip").2 =
      [Effect.publishedQuery "t" msgTypeQUERY "D" "Q0", Effect.loggedEvent] := by
  exact ⟨rfl, rfl⟩

/-- C7 as amended: after `close()`, `publish` and `handleMessage` fail
fast — they log the closed-dispatcher error and perform no pubsub I/O —
and a second `close()` leaves the dispatcher in the same closed state;
the remaining public operations (`register`, `storeCommit`, ...) do not
consult the closed flag. -/
theorem claim_close_idempotent_and_gates (s : DispatcherState) (m : PubsubMessage)
    (f : String) (d : PubsubMessage) :
    publish (close s).1 m = ((close s).1, [Effect.loggedErr closedErrorLog]) ∧
    handleMessage (close s).1 f d =
      Except.ok ((close s).1, [Effect.loggedErr closedErrorLog]) ∧
    (close (close s).1).1 = (close s).1 ∧
    (close s).1.isRunning = false := by
  refine ⟨?_, ?_, rfl, rfl⟩
  · simp [publish, close]
  · simp [handleMessage, close]

/-! ## C9: unknown message types fail fast -/

/-- C9: for every inbound message from a remote peer, received while the
dispatcher is running, whose deserialized `typ` is outside
QUERY/RESPONSE/UPDATE, `handleMessage` fails with the
unreachable-message-type error rather than absorbing the message. -/
theorem claim_unknown_type_fails (s : DispatcherState) (f : String) (t : Nat)
    (hrun : s.isRunning = true) (hself : (f == s.peerId) = false) :
    handleMessage s f (PubsubMessage.unknownTyp t) =
      Except.error (DispatchError.unreachableMessageType t) := by
  simp [handleMessage, hrun, hself]

/-- Witness for C9 at a concrete running dispatcher and wire tag 7. -/
theorem claim_unknown_type_fails_witness :
    handleMessage (initialDispatcher "p" "t") "other" (PubsubMessage.unknownTyp 7) =
      Except.error (DispatchError.unreachableMessageType 7) :=
  claim_unknown_type_fails (initialDispatcher "p" "t") "other" 7 rfl (by decide)

/-! ## C10: the outstanding query table only grows -/

theorem publish_fst (s : DispatcherState) (m : PubsubMessage) : (publish s m).1 = s := by
  unfold publish
  split <;> rfl

theorem handleResponseMessage_preserves_state (s : DispatcherState) (m : ResponseMsg)
    (s1 : DispatcherState) (effs : List Effect)
    (h : handleResponseMessage s m = Except.ok (s1, effs)) : s1 = s := by
  unfold handleResponseMessage at h
  split at h
  · injection h with h2
    injection h2 with ha hb
    exact ha.symm
  · split at h
    · exact Except.noConfusion h
    · split at h
      · injection h with h2
        injection h2 with ha hb
        exact ha.symm
      · injection h with h2
        injection h2 with ha hb
        exact ha.symm

theorem handleMessage_preserves_state (s : DispatcherState) (f : String)
    (d : PubsubMessage) (s1 : DispatcherState) (effs : List Effect)
    (h : handleMessage s f d = Except.ok (s1, effs)) : s1 = s := by
  unfold handleMessage at h
  split at h
  · injection h with h2
    injection h2 with ha hb
    exact ha.symm
  · split at h
    · injection h with h2
      injection h2 with ha hb
      exact ha.symm
    · split at h
      · rename_i m
        unfold handleQueryMessage at h
        split at h
        · injection h with h2
          have := congrArg Prod.fst h2
          rw [publish_fst] at this
          exact this.symm
        · injection h with h2
          injection h2 with ha hb
          exact ha.symm
      · exact handleResponseMessage_preserves_state s _ s1 effs h
      · unfold handleUpdateMessage at h
        split at h
        · injection h with h2
          injection h2 with ha hb
          exact ha.symm
        · injection h with h2
          injection h2 with ha hb
          exact ha.symm
      · exact Except.noConfusion h

theorem lookupQuery_isSome (s : DispatcherState) (q : String) :
    (lookupQuery s q).isSome =
      (s.outstandingQueryIds.find? (fun p => p.1 == q)).isSome := by
  unfold lookupQuery
  cases s.outstandingQueryIds.find? (fun p => p.1 == q) <;> rfl

theorem recordSet_lookup_isSome (l : List (String × String)) (k v q : String)
    (h : (l.find? (fun p => p.1 == q)).isSome) :
    ((recordSet l k v).find? (fun p => p.1 == q)).isSome := by
  unfold recordSet
  split
  · rw [List.find?_isSome] at h ⊢
    obtain ⟨x, hx, hpx⟩ := h
    refine ⟨if x.1 == k then (k, v) else x, List.mem_map.mpr ⟨x, hx, rfl⟩, ?_⟩
    by_cases hk : (x.1 == k) = true
    · rw [if_pos hk]
      have h1 : x.1 = q := by simpa using hpx
      have h2 : x.1 = k := by simpa using hk
      simp [← h2, h1]
    · rw [if_neg hk]
      exact hpx
  · rw [List.find?_isSome] at h ⊢
    obtain ⟨x, hx, hpx⟩ := h
    exact ⟨x, List.mem_append_left _ hx, hpx⟩

/-- C10: once `register` has recorded a query id in the outstanding query
table, no Dispatcher operation removes it: handling a (matching or not)
RESPONSE, and message handling generally, return the state unchanged;
`close` and `unregister` leave the table untouched; `publish` never
writes it; and `register` only adds or rebinds, so any id present stays
present.  The set of outstanding query ids only grows. -/
theorem claim_query_table_only_grows (L : HashLibs) (s : DispatcherState)
    (docId tip f q : String) (m : ResponseMsg) (pm : PubsubMessage) :
    (∀ s1 effs, handleResponseMessage s m = Except.ok (s1, effs) →
      s1.outstandingQueryIds = s.outstandingQueryIds) ∧
    (∀ s1 effs, handleMessage s f pm = Except.ok (s1, effs) →
      s1.outstandingQueryIds = s.outstandingQueryIds) ∧
    (close s).1.outstandingQueryIds = s.outstandingQueryIds ∧
    (unregister s docId).outstandingQueryIds = s.outstandingQueryIds ∧
    (publish s pm).1.outstandingQueryIds = s.outstandingQueryIds ∧
    ((lookupQuery s q).isSome = true →
      (lookupQuery (register L s docId tip).1 q).isSome = true) := by
  refine ⟨?_, ?_, rfl, rfl, ?_, ?_⟩
  · intro s1 effs h
    rw [handleResponseMessage_preserves_state s m s1 effs h]
  · intro s1 effs h
    rw [handleMessage_preserves_state s f pm s1 effs h]
  · rw [publish_fst]
  · intro h
    rw [lookupQuery_isSome] at h ⊢
    exact recordSet_lookup_isSome _ _ _ _ h

/-- Witness for C10 at a concrete dispatcher holding one outstanding
query: every clause is discharged at that state. -/
theorem claim_query_table_only_grows_witness :
    (close ⟨"p", "t", [("q0", "d0")], true, false, ⟨[]⟩⟩).1.outstandingQueryIds =
      [("q0", "d0")] ∧
    (lookupQuery (register L0 ⟨"p", "t", [("q0", "d0")], true, false, ⟨[]⟩⟩
      "D" "tip").1 "q0").isSome = true := by
  refine ⟨?_, ?_⟩
  · exact (claim_query_table_only_grows L0 ⟨"p", "t", [("q0", "d0")], true, false, ⟨[]⟩⟩
      "D" "tip" "f" "q0" ⟨"q", []⟩ (PubsubMessage.unknownTyp 0)).2.2.1
  · exact (claim_query_table_only_grows L0 ⟨"p", "t", [("q0", "d0")], true, false, ⟨[]⟩⟩
      "D" "tip" "f" "q0" ⟨"q", []⟩ (PubsubMessage.unknownTyp 0)).2.2.2.2.2 rfl

/-! ## C8: subscription behaviour (`_subscribe`)

The ipfs pubsub `subscribe` call is an external collaborator; one
invocation of `Dispatcher._subscribe` consumes the outcomes of its
successive subscribe attempts from a list (head first). -/

/-- Outcome of one underlying `pubsub.subscribe` attempt. -/
inductive SubOutcome where
  | success
  | alreadySubscribedErr
  | abortErr
  | otherErr (msg : String)
deriving DecidableEq, Repr

/-- Observable events of `_subscribe`: a completed
unsubscribe-resubscribe round with its log line, the debug log that
swallows an already-subscribed error, or an error log line. -/
inductive SubEvent where
  | resubscribed
  | debugLogged
  | errLogged (msg : String)
deriving DecidableEq, Repr

/-- `Dispatcher._subscribe`: skip when not forced and the topic is
already in the active subscription list; otherwise attempt to
resubscribe.  An already-subscribed failure is logged at debug level and
swallowed; an aborted-request failure triggers a recursive forced
attempt; any other failure is logged as an error.  No failure propagates
to the caller. -/
def subscribeRun : List SubOutcome → Bool → List String → String →
    Except String (List SubEvent)
  | outcomes, force, ls, topic =>
    if force = false ∧ ls.contains topic = true then Except.ok []
    else
      match outcomes with
      | [] => Except.ok [SubEvent.resubscribed]
      | SubOutcome.success :: _ => Except.ok [SubEvent.resubscribed]
      | SubOutcome.alreadySubscribedErr :: _ => Except.ok [SubEvent.debugLogged]
      | SubOutcome.abortErr :: rest => subscribeRun rest true ls topic
      | SubOutcome.otherErr msg :: _ => Except.ok [SubEvent.errLogged msg]

theorem subscribeRun_never_raises (outcomes : List SubOutcome) :
    ∀ (force : Bool) (ls : List String) (topic : String),
      ∃ evs, subscribeRun outcomes force ls topic = Except.ok evs := by
  induction outcomes with
  | nil =>
    intro force ls topic
    unfold subscribeRun
    split
    · exact ⟨[], rfl⟩
    · exact ⟨[SubEvent.resubscribed], rfl⟩
  | cons o rest ih =>
    intro force ls topic
    unfold subscribeRun
    split
    · exact ⟨[], rfl⟩
    · cases o with
      | success => exact ⟨[SubEvent.resubscribed], rfl⟩
      | alreadySubscribedErr => exact ⟨[SubEvent.debugLogged], rfl⟩
      | abortErr => exact ih true ls topic
      | otherErr msg => exact ⟨[SubEvent.errLogged msg], rfl⟩

/-- C8: `_subscribe` skips entirely when not forced and the topic is
already subscribed; when an attempt does run, an already-subscribed
error is swallowed with only a debug log, an aborted-request error
triggers exactly one further forced attempt (the invocation continues as
a forced retry on the remaining outcomes), any other error produces only
an error log, and no invocation ever raises an error to the caller. -/
theorem claim_subscribe_behaviour (outcomes rest : List SubOutcome) (force : Bool)
    (ls : List String) (topic msg : String) :
    (ls.contains topic = true → subscribeRun outcomes false ls topic = Except.ok []) ∧
    (force = true ∨ ls.contains topic = false →
      subscribeRun (SubOutcome.alreadySubscribedErr :: rest) force ls topic =
        Except.ok [SubEvent.debugLogged]) ∧
    (force = true ∨ ls.contains topic = false →
      subscribeRun (SubOutcome.abortErr :: rest) force ls topic =
        subscribeRun rest true ls topic) ∧
    (force = true ∨ ls.contains topic = false →
      subscribeRun (SubOutcome.otherErr msg :: rest) force ls topic =
        Except.ok [SubEvent.errLogged msg]) ∧
    (∃ evs, subscribeRun outcomes force ls topic = Except.ok evs) := by
  have hnot : force = true ∨ ls.contains topic = false →
      ¬ (force = false ∧ ls.contains topic = true) := by
    rintro (h | h) ⟨h1, h2⟩ <;> simp_all
  refine ⟨?_, ?_, ?_, ?_, subscribeRun_never_raises outcomes force ls topic⟩
  · intro h
    unfold subscribeRun
    rw [if_pos ⟨rfl, h⟩]
  · intro h
    conv_lhs => unfold subscribeRun
    rw [if_neg (hnot h)]
  · intro h
    conv_lhs => unfold subscribeRun
    rw [if_neg (hnot h)]
  · intro h
    conv_lhs => unfold subscribeRun
    rw [if_neg (hnot h)]

/-- Witness for C8 at concrete inputs: an already-subscribed topic is
skipped, and a first-attempt abort error retries once, forced, and then
succeeds. -/
theorem claim_subscribe_behaviour_witness :
    subscribeRun [SubOutcome.otherErr "boom"] false ["top"] "top" = Except.ok [] ∧
    subscribeRun [SubOutcome.abortErr, SubOutcome.success] true [] "top" =
      subscribeRun [SubOutcome.success] true [] "top" :=
  ⟨(claim_subscribe_behaviour [SubOutcome.otherErr "boom"] [] false ["top"] "top" "m").1
      (by decide),
   (claim_subscribe_behaviour [] [SubOutcome.success] true [] "top" "m").2.2.1
      (Or.inl rfl)⟩

end Ceramic
